import Mathlib

/-!
Verification development for the datasheet parameter extraction engine
(`brahma_hq_extractor/extractor/pdf_parser.py`).

The engine is embedded shallowly: the pure core — everything after the
PDF decoder has produced the concatenated page text and the list of
tables — is translated function by function.  Python dicts are modelled
as insertion-ordered association lists, Python `re` scanning is modelled
by direct scanners proved against the concrete patterns used in the
source, and Python `float` comparisons on decimal literals are modelled
by exact scaled-integer comparisons (they coincide for all decimal
tokens except those within floating-point rounding distance of the
integer bounds).
-/

/-- Python `\s` for the ASCII range (re module whitespace class). -/
def isPySpace (c : Char) : Bool :=
  c = ' ' || c = '\t' || c = '\n' || c = '\r' || c = '\x0b' || c = '\x0c'

/-- Line-break characters recognised by Python `str.splitlines`. -/
def isPyLineBreak (c : Char) : Bool :=
  c = '\n' || c = '\r' || c = '\x0b' || c = '\x0c' ||
  c = '\x1c' || c = '\x1d' || c = '\x1e' || c = '\x85' ||
  c = '\u2028' || c = '\u2029'

/-- Maximal non-whitespace runs of a character list (helper for `_norm_ws`). -/
def pyWordsAux : List Char → List Char → List (List Char)
  | [], acc => if acc = [] then [] else [acc.reverse]
  | c :: t, acc =>
    if isPySpace c then
      if acc = [] then pyWordsAux t [] else acc.reverse :: pyWordsAux t []
    else pyWordsAux t (c :: acc)

/-- `_norm_ws`: `re.sub(r"\s+", " ", s).strip()` — collapse every whitespace
run to one space and strip the ends. -/
def pyNormWs (s : String) : String :=
  String.mk (List.intercalate [' '] (pyWordsAux s.data []))

/-- `str.strip()` on a character list. -/
def pyStripChars (l : List Char) : List Char :=
  ((l.dropWhile isPySpace).reverse.dropWhile isPySpace).reverse

/-- `str.strip()`. -/
def pyStrip (s : String) : String := String.mk (pyStripChars s.data)

/-- `str.splitlines()` (no trailing empty line for a terminal line break,
`\r\n` counts as a single break). -/
def pySplitlinesAux : List Char → List Char → List (List Char)
  | [], acc => if acc = [] then [] else [acc.reverse]
  | '\r' :: '\n' :: t, acc => acc.reverse :: pySplitlinesAux t []
  | c :: t, acc =>
    if isPyLineBreak c then acc.reverse :: pySplitlinesAux t []
    else pySplitlinesAux t (c :: acc)

/-- `str.splitlines()`. -/
def pySplitlines (s : String) : List String :=
  (pySplitlinesAux s.data []).map String.mk

/-- Replace every maximal run of characters satisfying `p` by `repl`
(`re.sub(p_run, repl, ·)` for a character-class pattern); `inRun` says
whether the previous character belonged to a run. -/
def subRunsGo (p : Char → Bool) (repl : List Char) : Bool → List Char → List Char
  | _, [] => []
  | inRun, c :: t =>
    if p c then
      if inRun then subRunsGo p repl true t
      else repl ++ subRunsGo p repl true t
    else c :: subRunsGo p repl false t

/-- `re.sub(p_run, repl, ·)` for a character-class pattern. -/
def subRuns (p : Char → Bool) (repl : List Char) (l : List Char) : List Char :=
  subRunsGo p repl false l

/-- `'%'`/`'°'` expansion used by `_norm_key`. -/
def normKeyExpand (c : Char) : List Char :=
  if c = '%' then " pct ".data
  else if c = '°' then " deg ".data
  else [c]

/-- Strip a given character from both ends (`str.strip("_")`). -/
def stripChar (x : Char) (l : List Char) : List Char :=
  ((l.dropWhile (· = x)).reverse.dropWhile (· = x)).reverse

/-- `_norm_key`: lower-case, expand `%`/`°`, replace runs of
non-`[a-z0-9]` by `_`, collapse `_` runs, strip `_`, default `unnamed`,
and prefix sqlite reserved words with `f_`. -/
def pyNormKey (label : String) : String :=
  let s0 := (pyStripChars label.data).map Char.toLower
  let s1 := (s0.map normKeyExpand).flatten
  let s2 := subRuns (fun c => !(c.isLower || c.isDigit)) ['_'] s1
  let s3 := subRuns (· = '_') ['_'] s2
  let s4 := stripChar '_' s3
  if s4 = [] then "unnamed"
  else
    let s := String.mk s4
    if s = "select" || s = "from" || s = "where" || s = "table" ||
       s = "group" || s = "order" then "f_" ++ s
    else s

/-- Association-list lookup (Python `d[k]` / `d.get(k)`). -/
def pyLookup {α : Type} : List (String × α) → String → Option α
  | [], _ => Option.none
  | (k0, v0) :: t, k => if k0 = k then some v0 else pyLookup t k

/-- Python `d[k] = v`: replace in place if present, else append. -/
def pyUpdate {α : Type} : List (String × α) → String → α → List (String × α)
  | [], k, v => [(k, v)]
  | (k0, v0) :: t, k, v =>
    if k0 = k then (k0, v) :: t else (k0, v0) :: pyUpdate t k v

/-- Python `d.setdefault(k, v)` (the resulting dict). -/
def pySetdefault {α : Type} : List (String × α) → String → α → List (String × α)
  | [], k, v => [(k, v)]
  | (k0, v0) :: t, k, v =>
    if k0 = k then (k0, v0) :: t else (k0, v0) :: pySetdefault t k v

/-- Python `d.update(d2)`: fold `d[k] = v` over `d2` in order. -/
def pyDictUpdate {α : Type} (d : List (String × α)) (d2 : List (String × α)) :
    List (String × α) :=
  d2.foldl (fun acc p => pyUpdate acc p.1 p.2) d

/-- Numeric value of a digit string (`int(...)`, tolerating leading zeros). -/
def natOfDigits (l : List Char) : Nat :=
  l.foldl (fun n c => n * 10 + (c.toNat - '0'.toNat)) 0

/-- Scanner for `re.findall(r"\d+\.\d+|\d+", line)`.  At a digit run the
first alternative matches the run, a dot and a nonempty fraction run;
otherwise the second alternative matches the digit run itself.  The fuel
argument is at least the remaining length, and every step consumes at
least one character. -/
def numTokensGo : Nat → List Char → List (List Char)
  | 0, _ => []
  | _ + 1, [] => []
  | fuel + 1, c :: t =>
    if c.isDigit then
      let ip := (c :: t).takeWhile Char.isDigit
      let r1 := (c :: t).dropWhile Char.isDigit
      match r1 with
      | '.' :: r2 =>
        let fp := r2.takeWhile Char.isDigit
        if fp = [] then ip :: numTokensGo fuel r1
        else (ip ++ '.' :: fp) :: numTokensGo fuel (r2.dropWhile Char.isDigit)
      | _ => ip :: numTokensGo fuel r1
    else numTokensGo fuel t

/-- `re.findall(r"\d+\.\d+|\d+", ·)`. -/
def numTokens (s : List Char) : List String :=
  (numTokensGo (s.length + 1) s).map String.mk

/-- Scanner for `re.findall(r"\d+\.\d+", line)`: like `numTokensGo` but a
digit run without a fractional part yields no token (and no token can
start inside such a run). -/
def decTokensGo : Nat → List Char → List (List Char)
  | 0, _ => []
  | _ + 1, [] => []
  | fuel + 1, c :: t =>
    if c.isDigit then
      let ip := (c :: t).takeWhile Char.isDigit
      let r1 := (c :: t).dropWhile Char.isDigit
      match r1 with
      | '.' :: r2 =>
        let fp := r2.takeWhile Char.isDigit
        if fp = [] then decTokensGo fuel r1
        else (ip ++ '.' :: fp) :: decTokensGo fuel (r2.dropWhile Char.isDigit)
      | _ => decTokensGo fuel r1
    else decTokensGo fuel t

/-- `re.findall(r"\d+\.\d+", ·)`. -/
def decTokens (s : List Char) : List String :=
  (decTokensGo (s.length + 1) s).map String.mk

/-- Python `\w` (ASCII part of the word character class). -/
def isWordChar (c : Char) : Bool := c.isAlphanum || c = '_'

/-- Scanner for `re.findall(r"\b(\d{3})\b", line)`: exactly three digits
with a word boundary on both sides.  `prevW` tracks whether the
preceding character is a word character. -/
def threeDigitTokensGo : Nat → Bool → List Char → List (List Char)
  | 0, _, _ => []
  | _ + 1, _, [] => []
  | fuel + 1, prevW, c :: t =>
    if !prevW && c.isDigit then
      match t with
      | d2 :: d3 :: r =>
        if d2.isDigit && d3.isDigit &&
           (match r with | [] => true | x :: _ => !(isWordChar x)) then
          [c, d2, d3] :: threeDigitTokensGo fuel true r
        else threeDigitTokensGo fuel (isWordChar c) t
      | _ => threeDigitTokensGo fuel (isWordChar c) t
    else threeDigitTokensGo fuel (isWordChar c) t

/-- `re.findall(r"\b(\d{3})\b", ·)`. -/
def threeDigitTokens (s : List Char) : List String :=
  (threeDigitTokensGo (s.length + 1) false s).map String.mk

/-- One Format-B candidate row: the six captured tokens of
`(?<!\d)(\d{3})\s+(\d+\.\d+)\s+(\d+\.\d+)\s+(\d+\.\d+)\s+(\d+\.\d+)\s+(\d+\.\d+)`,
positionally Pmax, Vmp, Imp, Voc, Isc, efficiency. -/
structure BMatch where
  p : String
  vmp : String
  imp : String
  voc : String
  isc : String
  eff : String
deriving DecidableEq

/-- `\s+` followed by a non-whitespace continuation: consume the maximal
whitespace run (at least one character). -/
def matchWsPlus (s : List Char) : Option (List Char) :=
  match s with
  | c :: t => if isPySpace c then some (t.dropWhile isPySpace) else Option.none
  | [] => Option.none

/-- `(\d+\.\d+)` at the start of `s`: maximal digit run, a dot, maximal
nonempty fraction run. -/
def matchDecTok (s : List Char) : Option (List Char × List Char) :=
  let ip := s.takeWhile Char.isDigit
  let r1 := s.dropWhile Char.isDigit
  if ip = [] then Option.none
  else match r1 with
    | '.' :: r2 =>
      let fp := r2.takeWhile Char.isDigit
      if fp = [] then Option.none
      else some (ip ++ '.' :: fp, r2.dropWhile Char.isDigit)
    | _ => Option.none

/-- Try the Format-B row pattern at the current position (the `(?<!\d)`
look-behind is checked by the caller).  The `\s+` after `\d{3}` rejects
longer digit runs. -/
def matchB (s : List Char) : Option (BMatch × List Char) :=
  match s with
  | d1 :: d2 :: d3 :: r =>
    if d1.isDigit && d2.isDigit && d3.isDigit then do
      let r1 ← matchWsPlus r
      let (vmp, r2) ← matchDecTok r1
      let r3 ← matchWsPlus r2
      let (imp, r4) ← matchDecTok r3
      let r5 ← matchWsPlus r4
      let (voc, r6) ← matchDecTok r5
      let r7 ← matchWsPlus r6
      let (isc, r8) ← matchDecTok r7
      let r9 ← matchWsPlus r8
      let (eff, r10) ← matchDecTok r9
      pure ({ p := String.mk [d1, d2, d3], vmp := String.mk vmp,
              imp := String.mk imp, voc := String.mk voc,
              isc := String.mk isc, eff := String.mk eff }, r10)
    else Option.none
  | _ => Option.none

/-- `pat.findall(text)` for the Format-B row pattern: left-to-right
non-overlapping scan; `prevD` tracks whether the preceding character is
a digit (the look-behind). -/
def findAllBGo : Nat → Bool → List Char → List BMatch
  | 0, _, _ => []
  | _ + 1, _, [] => []
  | fuel + 1, prevD, c :: t =>
    if !prevD then
      match matchB (c :: t) with
      | some (m, rest) => m :: findAllBGo fuel true rest
      | Option.none => findAllBGo fuel c.isDigit t
    else findAllBGo fuel c.isDigit t

/-- All Format-B row matches of a text. -/
def findAllB (s : List Char) : List BMatch :=
  findAllBGo (s.length + 1) false s

/-- Exact value of a `\d+\.\d+` token as a scaled integer
`(numerator, 10 ^ fraction_length)`. -/
def decScaled (s : List Char) : Nat × Nat :=
  let ip := s.takeWhile (fun c => !(c = '.'))
  let fp := (s.dropWhile (fun c => !(c = '.'))).drop 1
  (natOfDigits (ip ++ fp), 10 ^ fp.length)

/-- `lo <= float(tok) <= hi` for integer bounds, compared exactly. -/
def decInRange (lo hi : Nat) (tok : String) : Bool :=
  let sc := decScaled tok.data
  decide (lo * sc.2 ≤ sc.1) && decide (sc.1 ≤ hi * sc.2)

/-- The Format-B plausibility filter of `_parse_renewsys_like_variants`:
`500 <= p_i <= 800 and 20 <= vmp_f <= 80 and 30 <= voc_f <= 90 and
10 <= eff_f <= 30`. -/
def acceptB (m : BMatch) : Bool :=
  let pInt := natOfDigits m.p.data
  decide (500 ≤ pInt) && decide (pInt ≤ 800) &&
  decInRange 20 80 m.vmp && decInRange 30 90 m.voc && decInRange 10 30 m.eff

/-- Rational value of a decimal token (reference semantics for the
plausibility ranges as the specification states them). -/
def decRat (tok : String) : ℚ :=
  let sc := decScaled tok.data
  (sc.1 : ℚ) / (sc.2 : ℚ)

/-- The plausibility filter as the specification states it: Pmax integer
in [500,800], Vmp in [20,80], Voc in [30,90], efficiency in [10,30]. -/
def acceptSpec (m : BMatch) : Bool :=
  decide (500 ≤ natOfDigits m.p.data ∧ natOfDigits m.p.data ≤ 800 ∧
          (20 : ℚ) ≤ decRat m.vmp ∧ decRat m.vmp ≤ 80 ∧
          (30 : ℚ) ≤ decRat m.voc ∧ decRat m.voc ≤ 90 ∧
          (10 : ℚ) ≤ decRat m.eff ∧ decRat m.eff ≤ 30)

/-- One element of a regular expression as used by the canonical field
patterns: a single-character class, a star (greedy or lazy) over a
class, a greedy plus over a class, or an optional class character. -/
inductive RItem : Type
  | one (p : Char → Bool)
  | many (p : Char → Bool) (greedy : Bool)
  | plus1 (p : Char → Bool)
  | opt1 (p : Char → Bool)

/-- A canonical pattern: a group-free part followed by an optional
single capturing group ending the pattern (the shape of every pattern
passed to `_first_match`). -/
structure RPat where
  pre : List RItem
  grp : Option (List RItem)

/-- Backtracking matcher in continuation-passing style.  Successive
possibilities are tried in the order Python's `re` does (greedy
quantifiers longest first, lazy shortest first); the first success wins.
One unit of fuel is spent per item, so `items.length + 1` is always
enough. -/
def mSeq : Nat → List RItem → List Char → (List Char → Option (List Char)) →
    Option (List Char)
  | _, [], s, k => k s
  | 0, _ :: _, _, _ => Option.none
  | fuel + 1, RItem.one p :: t, s, k =>
    match s with
    | [] => Option.none
    | c :: s1 => if p c then mSeq fuel t s1 k else Option.none
  | fuel + 1, RItem.many p greedy :: t, s, k =>
    let run := (s.takeWhile p).length
    let cands := if greedy then (List.range (run + 1)).reverse
                 else List.range (run + 1)
    cands.findSome? (fun i => mSeq fuel t (s.drop i) k)
  | fuel + 1, RItem.plus1 p :: t, s, k =>
    let run := (s.takeWhile p).length
    (((List.range run).map (· + 1)).reverse).findSome?
      (fun i => mSeq fuel t (s.drop i) k)
  | fuel + 1, RItem.opt1 p :: t, s, k =>
    match s with
    | [] => mSeq fuel t [] k
    | c :: s1 =>
      if p c then mSeq fuel t s1 k <|> mSeq fuel t (c :: s1) k
      else mSeq fuel t (c :: s1) k

/-- Try a canonical pattern at the current position; on success return
`group(1)` when the pattern has a group, else `group(0)`. -/
def matchPatAt (pat : RPat) (s : List Char) : Option (List Char) :=
  match pat.grp with
  | Option.none =>
    mSeq (pat.pre.length + 1) pat.pre s
      (fun rest => some (s.take (s.length - rest.length)))
  | some g =>
    mSeq (pat.pre.length + 1) pat.pre s (fun s2 =>
      mSeq (g.length + 1) g s2
        (fun s3 => some (s2.take (s2.length - s3.length))))

/-- `re.search`: try the pattern at every position, leftmost first. -/
def searchPat (pat : RPat) : List Char → Option (List Char)
  | [] => matchPatAt pat []
  | c :: t => matchPatAt pat (c :: t) <|> searchPat pat t

/-- `_first_match`: the first pattern that matches anywhere wins; the
captured (or whole-match) text is whitespace-normalized; no match at all
gives the empty string. -/
def pyFirstMatch (text : String) (pats : List RPat) : String :=
  match pats.findSome? (fun p => searchPat p text.data) with
  | some cs => pyNormWs (String.mk cs)
  | Option.none => ""

/-- A case-insensitive literal (the `re.IGNORECASE` flag is set on every
canonical pattern). -/
def litCI (s : String) : List RItem :=
  s.data.map (fun c => RItem.one (fun x => x.toLower = c.toLower))

/-- `\s*`. -/
def sStar : RItem := RItem.many isPySpace true

/-- `\s+`. -/
def sPlus : RItem := RItem.plus1 isPySpace

/-- `([^\n]+)` body. -/
def notNLplus : RItem := RItem.plus1 (fun c => !(c = '\n'))

/-- `[:\-]?`. -/
def optCD : RItem := RItem.opt1 (fun c => c = ':' || c = '-')

/-- `[0-9]+` / `\d+`. -/
def digitPlus : RItem := RItem.plus1 Char.isDigit

/-- The common tail `\s*[:\-]?\s*` of the label patterns. -/
def labelTail : List RItem := [sStar, optCD, sStar]

/-- A label pattern `<words>\s*[:\-]?\s*([^\n]+)` where the label words
are separated by `sep` (either `\s+` or `\s*`). -/
def labelPat (sep : RItem) (words : List String) : RPat :=
  { pre := ((words.map litCI).intersperse [sep]).flatten ++ labelTail
    grp := some [notNLplus] }

/-- `Power\s+Tolerance\s*[:\-]?\s*([^\n]+)`. -/
def patPowerTolerance : RPat := labelPat sPlus ["Power", "Tolerance"]

/-- `45\s*±\s*2\s*°C`. -/
def patNoct45 : RPat :=
  { pre := litCI "45" ++ [sStar] ++ litCI "±" ++ [sStar] ++ litCI "2" ++
           [sStar] ++ litCI "°C"
    grp := Option.none }

/-- `NOCT[^\n]*?([0-9]+\s*±\s*[0-9]+\s*°C)`. -/
def patNoctGen : RPat :=
  { pre := litCI "NOCT" ++ [RItem.many (fun c => !(c = '\n')) false]
    grp := some ([digitPlus, sStar] ++ litCI "±" ++ [sStar, digitPlus, sStar] ++
                 litCI "°C") }

/-- `Maximum\s+System\s+Voltage\s*[:\-]?\s*([^\n]+)`. -/
def patMaxSysVoltage : RPat := labelPat sPlus ["Maximum", "System", "Voltage"]

/-- `Maximum\s+Series\s+Fuse\s+Rating\s*[:\-]?\s*([^\n]+)`. -/
def patFuseRating : RPat := labelPat sPlus ["Maximum", "Series", "Fuse", "Rating"]

/-- `Refer\.?\s*Bifacial\s*Factor\s*[:\-]?\s*([^\n]+)`. -/
def patBifacial : RPat :=
  { pre := litCI "Refer" ++ [RItem.opt1 (fun c => c = '.'), sStar] ++
           litCI "Bifacial" ++ [sStar] ++ litCI "Factor" ++ labelTail
    grp := some [notNLplus] }

/-- `Temperature\s+Coefficient\s+of\s+Pmax\s*[:\-]?\s*([^\n]+)`. -/
def patTempCoPmax : RPat :=
  labelPat sPlus ["Temperature", "Coefficient", "of", "Pmax"]

/-- `TEMPERATURE\s*COEFFICIENT\s*[:\-]?\s*([^\n]+)`. -/
def patTempCoAllCaps : RPat := labelPat sStar ["TEMPERATURE", "COEFFICIENT"]

/-- `Temperature\s+Coefficient\s+of\s+Voc\s*[:\-]?\s*([^\n]+)`. -/
def patTempCoVoc : RPat :=
  labelPat sPlus ["Temperature", "Coefficient", "of", "Voc"]

/-- `Temperature\s+Coefficient\s+of\s+Isc\s*[:\-]?\s*([^\n]+)`. -/
def patTempCoIsc : RPat :=
  labelPat sPlus ["Temperature", "Coefficient", "of", "Isc"]

/-- `Dimensions\s*[:\-]?\s*([^\n]+)`. -/
def patDimensions : RPat := labelPat sPlus ["Dimensions"]

/-- `Weight\s*[:\-]?\s*([^\n]+)`. -/
def patWeight : RPat := labelPat sPlus ["Weight"]

/-- `Front\s+Glass\s*[:\-]?\s*([^\n]+)`. -/
def patFrontGlass : RPat := labelPat sPlus ["Front", "Glass"]

/-- `Back\s+Glass\s*[:\-]?\s*([^\n]+)`. -/
def patBackGlass : RPat := labelPat sPlus ["Back", "Glass"]

/-- `Frame\s*[:\-]?\s*([^\n]+)`. -/
def patFrame : RPat := labelPat sPlus ["Frame"]

/-- `Junction\s+Box\s*[:\-]?\s*([^\n]+)`. -/
def patJunctionBox : RPat := labelPat sPlus ["Junction", "Box"]

/-- `Protection\s+Class\s*[:\-]?\s*([^\n]+)`. -/
def patProtectionClass : RPat := labelPat sPlus ["Protection", "Class"]

/-- `IEC\s*Fire\s*Type\s*[:\-]?\s*([^\n]+)`. -/
def patIecFireType : RPat := labelPat sStar ["IEC", "Fire", "Type"]

/-- `Output\s+Cables\s*[:\-]?\s*([^\n]+)`. -/
def patOutputCables : RPat := labelPat sPlus ["Output", "Cables"]

/-- `Pallet\s+Dimen(?:tions|sions)\s*[:\-]?\s*([^\n]+)` (the alternation
is `(t|s)ions`). -/
def patPalletDim : RPat :=
  { pre := litCI "Pallet" ++ [sPlus] ++ litCI "Dimen" ++
           [RItem.one (fun c => c.toLower = 't' || c.toLower = 's')] ++
           litCI "ions" ++ labelTail
    grp := some [notNLplus] }

/-- `(\d+\s*pcs/pallet[^\n]*)` — the whole pattern is the group. -/
def patPacking : RPat :=
  { pre := []
    grp := some ([digitPlus, sStar] ++ litCI "pcs/pallet" ++
                 [RItem.many (fun c => !(c = '\n')) true]) }

/-- The canonical-field table of `extract_parameters` (lines 284-310):
the ordered field names with their `_first_match` results. -/
def canonicalEntries (text : String) : List (String × String) :=
  [("power_tolerance", pyFirstMatch text [patPowerTolerance]),
   ("temperature_noct", pyFirstMatch text [patNoct45, patNoctGen]),
   ("maximum_system_voltage", pyFirstMatch text [patMaxSysVoltage]),
   ("maximum_series_fuse_rating", pyFirstMatch text [patFuseRating]),
   ("refer_bifacial_factor", pyFirstMatch text [patBifacial]),
   ("temperature_coefficient_pmax", pyFirstMatch text [patTempCoPmax, patTempCoAllCaps]),
   ("temperature_coefficient_voc", pyFirstMatch text [patTempCoVoc]),
   ("temperature_coefficient_isc", pyFirstMatch text [patTempCoIsc]),
   ("dimensions", pyFirstMatch text [patDimensions]),
   ("weight", pyFirstMatch text [patWeight]),
   ("front_glass", pyFirstMatch text [patFrontGlass]),
   ("back_glass", pyFirstMatch text [patBackGlass]),
   ("frame", pyFirstMatch text [patFrame]),
   ("junction_box", pyFirstMatch text [patJunctionBox]),
   ("protection_class", pyFirstMatch text [patProtectionClass]),
   ("iec_fire_type", pyFirstMatch text [patIecFireType]),
   ("output_cables", pyFirstMatch text [patOutputCables]),
   ("pallet_dimensions", pyFirstMatch text [patPalletDim]),
   ("packing_details", pyFirstMatch text [patPacking])]

/-- The canonical field names in source order. -/
def canonicalNames : List String :=
  ["power_tolerance", "temperature_noct", "maximum_system_voltage",
   "maximum_series_fuse_rating", "refer_bifacial_factor",
   "temperature_coefficient_pmax", "temperature_coefficient_voc",
   "temperature_coefficient_isc", "dimensions", "weight", "front_glass",
   "back_glass", "frame", "junction_box", "protection_class",
   "iec_fire_type", "output_cables", "pallet_dimensions", "packing_details"]

/-- Substring test (Python `needle in hay`). -/
def containsSub : List Char → List Char → Bool
  | [], needle => needle.isPrefixOf []
  | c :: t, needle => needle.isPrefixOf (c :: t) || containsSub t needle

/-- Case-insensitive substring test (`needle.lower() in hay.lower()`). -/
def strContainsCI (hay needle : String) : Bool :=
  containsSub (hay.data.map Char.toLower) (needle.data.map Char.toLower)

/-- `l.split(":", 1)` when a colon is present. -/
def splitFirstColon (l : List Char) : Option (List Char × List Char) :=
  if l.contains ':' then
    some (l.takeWhile (fun c => !(c = ':')),
          (l.dropWhile (fun c => !(c = ':'))).drop 1)
  else Option.none

/-- `re.split(r"\s{2,}", l, maxsplit=1)`: split at the first run of two
or more whitespace characters (the run itself is consumed greedily). -/
def splitWsRun2Go : List Char → List Char → Option (List Char × List Char)
  | acc, c1 :: c2 :: t =>
    if isPySpace c1 && isPySpace c2 then
      some (acc.reverse, (c1 :: c2 :: t).dropWhile isPySpace)
    else splitWsRun2Go (c1 :: acc) (c2 :: t)
  | _, _ => Option.none

/-- Register a key/value pair under the first-non-empty-wins rule of
`_extract_kv_from_lines` / `_extract_kv_from_tables`:
`if k not in out or (out[k] == "" and right != ""): out[k] = right`. -/
def registerKV (out : List (String × String)) (k right : String) :
    List (String × String) :=
  match pyLookup out k with
  | Option.none => pyUpdate out k right
  | some v0 => if v0 = "" && !(right = "") then pyUpdate out k right else out

/-- One line of `_extract_kv_from_lines`: normalize, skip short lines,
split on the first colon (else, dead in practice, on a 2+-space run),
normalize both sides, apply the length limits and register. -/
def lineKvStep (out : List (String × String)) (line : String) :
    List (String × String) :=
  let l := pyNormWs line
  if l = "" || l.length < 6 then out
  else
    let split :=
      match splitFirstColon l.data with
      | some lr => some lr
      | Option.none =>
        if containsSub l.data (' ' :: [' ']) then splitWsRun2Go [] l.data
        else Option.none
    match split with
    | Option.none => out
    | some (lf, rt) =>
      let left := pyNormWs (String.mk lf)
      let right := pyNormWs (String.mk rt)
      if left.length < 3 || right.length < 1 then out
      else registerKV out (pyNormKey left) right

/-- `_extract_kv_from_lines`. -/
def extractKvFromLines (text : String) : List (String × String) :=
  (pySplitlines text).foldl lineKvStep []

/-- One row of `_extract_kv_from_tables`: normalize the cells, drop the
empty ones, take the first two as label and value. -/
def tableRowStep (out : List (String × String)) (row : List (Option String)) :
    List (String × String) :=
  let cells := (row.map (fun c =>
    match c with
    | some s => pyNormWs s
    | Option.none => "")).filter (fun c => !(c = ""))
  match cells with
  | left :: right :: _ =>
    if left.length < 3 || right.length < 1 then out
    else registerKV out (pyNormKey left) right
  | _ => out

/-- `_extract_kv_from_tables`. -/
def extractKvFromTables (tables : List (List (List (Option String)))) :
    List (String × String) :=
  tables.foldl (fun out table => table.foldl tableRowStep out) []

/-- The nonempty whitespace-normalized lines of a text
(`[_norm_ws(l) for l in text.splitlines() if _norm_ws(l)]`). -/
def normLines (text : String) : List String :=
  ((pySplitlines text).map pyNormWs).filter (fun l => !(l = ""))

/-- `find_line` of `_parse_jinko_like_variants`: the first line containing
the label, case-insensitively; `""` when absent. -/
def jinkoFindLine (text lbl : String) : String :=
  ((normLines text).find? (fun l => strContainsCI l lbl)).getD ""

/-- `_parse_row_numbers`: the numeric tokens of a line, keeping the last
`expected` of them when at least `expected` were found, else nothing. -/
def parseRowNumbers (line : String) (expected : Nat) : List String :=
  let nums := numTokens line.data
  if expected ≤ nums.length then nums.drop (nums.length - expected) else []

/-- The trailing-five numeric tokens of the first line carrying a metric
label (Format A). -/
def jinkoMetricTokens (text lbl : String) : List String :=
  parseRowNumbers (jinkoFindLine text lbl) 5

/-- The five NOCT token rows of Format A: the five lines after the first
line equal to `"Specifications (NOCT)"`, each row present only while the
line index stays in range (an out-of-range access aborts the remaining
assignments, mirroring the `try`/`except` in the source). -/
def jinkoNoctLists (text : String) :
    List String × List String × List String × List String × List String :=
  let ls := normLines text
  match ls.findIdx? (fun l => pyStrip l == "Specifications (NOCT)") with
  | Option.none => ([], [], [], [], [])
  | some i =>
    (if i + 1 < ls.length then parseRowNumbers (ls.getD (i + 1) "") 5 else [],
     if i + 2 < ls.length then parseRowNumbers (ls.getD (i + 2) "") 5 else [],
     if i + 3 < ls.length then parseRowNumbers (ls.getD (i + 3) "") 5 else [],
     if i + 4 < ls.length then parseRowNumbers (ls.getD (i + 4) "") 5 else [],
     if i + 5 < ls.length then parseRowNumbers (ls.getD (i + 5) "") 5 else [])

/-- `_parse_jinko_like_variants` (Format A). -/
def parseJinkoLikeVariants (text : String) : List (List (String × String)) :=
  let pmax := jinkoMetricTokens text "Maximum Power - Pmax"
  if pmax = [] then []
  else
    let vmp := jinkoMetricTokens text "Maximum Power Voltage - Vmp"
    let imp := jinkoMetricTokens text "Maximum Power Current - Imp"
    let voc := jinkoMetricTokens text "Open-circuit Voltage - Voc"
    let isc := jinkoMetricTokens text "Short-circuit Current - Isc"
    let eff := jinkoMetricTokens text "Module Efficiency STC"
    let n := jinkoNoctLists text
    pmax.enum.map (fun ip =>
      [("pmax_w", ip.2),
       ("vmp_v", vmp.getD ip.1 ""),
       ("imp_a", imp.getD ip.1 ""),
       ("voc_v", voc.getD ip.1 ""),
       ("isc_a", isc.getD ip.1 ""),
       ("efficiency_pct", eff.getD ip.1 ""),
       ("noct_pmax_w", n.1.getD ip.1 ""),
       ("noct_vmp_v", n.2.1.getD ip.1 ""),
       ("noct_imp_a", n.2.2.1.getD ip.1 ""),
       ("noct_voc_v", n.2.2.2.1.getD ip.1 ""),
       ("noct_isc_a", n.2.2.2.2.getD ip.1 "")])

/-- One processing step of the Format-B candidate loop: a match passing
the plausibility filter is stored under its Pmax key (overwriting), a
failing match is dropped. -/
def formatBRowsStep (d : List (String × (String × String × String × String × String)))
    (m : BMatch) : List (String × (String × String × String × String × String)) :=
  if acceptB m then pyUpdate d m.p (m.vmp, m.imp, m.voc, m.isc, m.eff) else d

/-- The Format-B candidate row dict (`rows` in the source). -/
def formatBRows (text : String) :
    List (String × (String × String × String × String × String)) :=
  (findAllB text.data).foldl formatBRowsStep []

/-- `sorted(keys, key=lambda x: int(x))`. -/
def sortByIntVal (keys : List String) : List String :=
  List.insertionSort (fun a b => natOfDigits a.data ≤ natOfDigits b.data) keys

/-- Is a (3-digit) key in the nominal 600–625 band? -/
def inBand600 (k : String) : Bool :=
  decide (600 ≤ natOfDigits k.data) && decide (natOfDigits k.data ≤ 625)

/-- The selected Pmax band of Format B: the 600–625 keys if any exist,
else the six lowest keys. -/
def renewsysUseKeys (text : String) : List String :=
  let keys := sortByIntVal ((formatBRows text).map Prod.fst)
  let keys600 := keys.filter inBand600
  if keys600 = [] then keys.take 6 else keys600

/-- The Format-B NOCT map: from the first line containing both `"noct"`
and `"@800"`, the 3-digit powers on that line and the decimal tokens of
the next three lines, joined positionally. -/
def renewsysNoctMap (text : String) : List (String × List (String × String)) :=
  let lines := normLines text
  match lines.findIdx? (fun l => strContainsCI l "noct" && strContainsCI l "@800") with
  | Option.none => []
  | some i =>
    let powers := threeDigitTokens (lines.getD i "").data
    if i + 3 < lines.length then
      let pmaxNoct := decTokens (lines.getD (i + 1) "").data
      let vmpNoct := decTokens (lines.getD (i + 2) "").data
      let impNoct := decTokens (lines.getD (i + 3) "").data
      ((powers.take pmaxNoct.length).enum).foldl
        (fun m jp =>
          pyUpdate m jp.2
            [("noct_pmax_w", pmaxNoct.getD jp.1 ""),
             ("noct_vmp_v", vmpNoct.getD jp.1 ""),
             ("noct_imp_a", impNoct.getD jp.1 "")])
        []
    else []

/-- `_parse_renewsys_like_variants` (Format B). -/
def parseRenewsysLikeVariants (text : String) : List (List (String × String)) :=
  let rows := formatBRows text
  let keys := sortByIntVal (rows.map Prod.fst)
  if keys = [] then []
  else
    let keys600 := keys.filter inBand600
    let useKeys := if keys600 = [] then keys.take 6 else keys600
    let noctMap := renewsysNoctMap text
    useKeys.map (fun p =>
      let row := (pyLookup rows p).getD ("", "", "", "", "")
      let noct := (pyLookup noctMap p).getD []
      [("pmax_w", p),
       ("vmp_v", row.1),
       ("imp_a", row.2.1),
       ("voc_v", row.2.2.1),
       ("isc_a", row.2.2.2.1),
       ("efficiency_pct", row.2.2.2.2),
       ("noct_pmax_w", (pyLookup noct "noct_pmax_w").getD ""),
       ("noct_vmp_v", (pyLookup noct "noct_vmp_v").getD ""),
       ("noct_imp_a", (pyLookup noct "noct_imp_a").getD ""),
       ("noct_voc_v", (pyLookup noct "noct_voc_v").getD ""),
       ("noct_isc_a", (pyLookup noct "noct_isc_a").getD "")])

/-- A hex digit for JSON control-character escapes. -/
def hexDigit (n : Nat) : Char :=
  if n < 10 then Char.ofNat ('0'.toNat + n) else Char.ofNat ('a'.toNat + n - 10)

/-- `json.dumps` escaping of one character (`ensure_ascii=False`). -/
def jsonEscapeChar (c : Char) : List Char :=
  if c = '"' then ['\\', '"']
  else if c = '\\' then ['\\', '\\']
  else if c = '\n' then ['\\', 'n']
  else if c = '\t' then ['\\', 't']
  else if c = '\r' then ['\\', 'r']
  else if c = '\x08' then ['\\', 'b']
  else if c = '\x0c' then ['\\', 'f']
  else if c.toNat < 32 then
    ['\\', 'u', '0', '0', hexDigit (c.toNat / 16), hexDigit (c.toNat % 16)]
  else [c]

/-- A JSON string literal. -/
def jsonStr (s : String) : String :=
  "\"" ++ String.mk ((s.data.map jsonEscapeChar).flatten) ++ "\""

/-- A JSON cell: a string or `null`. -/
def jsonCell : Option String → String
  | some s => jsonStr s
  | Option.none => "null"

/-- A JSON array with `json.dumps`'s default `", "` separator. -/
def jsonArr (xs : List String) : String :=
  "[" ++ String.intercalate ", " xs ++ "]"

/-- `json.dumps(all_tables, ensure_ascii=False)`. -/
def jsonDumpTables (tables : List (List (List (Option String)))) : String :=
  jsonArr (tables.map (fun t => jsonArr (t.map (fun r => jsonArr (r.map jsonCell)))))

/-- The assembled output of `extract_parameters`.  The four special keys
`variants`, `raw_text`, `raw_tables_json` and `extraction_method` of the
Python output dict hold non-scalar or fixed values and are modelled as
dedicated record fields; `fields` is the dict restricted to the scalar
entries.  Scalar values are `Option String` because the Python dict is
dynamically typed (`None` is representable); the final normalization
pass coerces `None` to `""`. -/
structure ExtractedRecord where
  fields : List (String × Option String)
  variants : List (List (String × Option String))
  raw_text : String
  raw_tables_json : String
  extraction_method : String

/-- The four dict keys assigned after the generic/canonical merge. -/
def specialKeys : List String :=
  ["variants", "raw_text", "raw_tables_json", "extraction_method"]

/-- The final no-`None` pass (`if v is None: out[k] = ""`). -/
def ensureStr (v : Option String) : Option String := some (v.getD "")

/-- The generic key/value map of `extract_parameters` (lines 278-280):
an empty dict updated with the table map and then with the line map. -/
def genericKv (text : String) (tables : List (List (List (Option String)))) :
    List (String × String) :=
  pyDictUpdate (pyDictUpdate [] (extractKvFromTables tables))
    (extractKvFromLines text)

/-- One canonical-merge step (lines 316-321): a non-empty canonical value
overwrites, an empty one only guarantees key presence. -/
def canonicalStep (d : List (String × Option String)) (p : String × String) :
    List (String × Option String) :=
  if !(p.2 = "") then pyUpdate d (pyNormKey p.1) (some p.2)
  else pySetdefault d (pyNormKey p.1) (some "")

/-- The merged field dict before the final no-`None` pass: the generic
key/value map (as dict of Python objects) with the canonical entries
folded over it (lines 313-321). -/
def mergedFieldDict (allText : String)
    (allTables : List (List (List (Option String)))) :
    List (String × Option String) :=
  (canonicalEntries allText).foldl canonicalStep
    ((genericKv allText allTables).map (fun p => (p.1, some p.2)))

/-- The scalar fields of the final record: the merged dict minus the
four special keys (whose entries are overwritten by the non-scalar
values of lines 327-332), after the no-`None` pass of lines 335-337. -/
def extractScalarFields (allText : String)
    (allTables : List (List (List (Option String)))) :
    List (String × Option String) :=
  ((mergedFieldDict allText allTables).filter
      (fun p => !(specialKeys.contains p.1))).map
    (fun p => (p.1, ensureStr p.2))

/-- Format-A result, falling back to Format B when it is empty
(lines 324-326: `if not variants: variants = _parse_renewsys...`). -/
def chosenVariants (allText : String) : List (List (String × String)) :=
  let jk := parseJinkoLikeVariants allText
  if jk = [] then parseRenewsysLikeVariants allText else jk

/-- The variant dicts after the per-variant normalization pass of lines
339-346 (`str(vv[kk])` on values that are already strings). -/
def normalizedVariants (allText : String) :
    List (List (String × Option String)) :=
  (chosenVariants allText).map (fun vv => vv.map (fun q => (q.1, some q.2)))

/-- `extract_parameters` on a decoded document (the concatenated page
text and the decoded tables). -/
def extractParameters (allText : String)
    (allTables : List (List (List (Option String)))) : ExtractedRecord :=
  { fields := extractScalarFields allText allTables
    variants := normalizedVariants allText
    raw_text := allText
    raw_tables_json := jsonDumpTables allTables
    extraction_method := "pdfplumber_generic_kv+variants_v1" }

/-! ### Generic lemmas about the dict model -/

theorem pyLookup_update_self {α : Type} (d : List (String × α)) (k : String) (v : α) :
    pyLookup (pyUpdate d k v) k = some v := by
  induction d with
  | nil => simp [pyUpdate, pyLookup]
  | cons p t ih =>
    obtain ⟨k0, v0⟩ := p
    by_cases h : k0 = k
    · simp [pyUpdate, pyLookup, h]
    · simp [pyUpdate, pyLookup, h, ih]

theorem pyLookup_update_ne {α : Type} (d : List (String × α)) (k1 k : String) (v : α)
    (h : k1 ≠ k) : pyLookup (pyUpdate d k1 v) k = pyLookup d k := by
  induction d with
  | nil => simp [pyUpdate, pyLookup, h]
  | cons p t ih =>
    obtain ⟨k0, v0⟩ := p
    by_cases h0 : k0 = k1
    · subst h0
      simp [pyUpdate, pyLookup, h]
    · simp [pyUpdate, pyLookup, h0, ih]

theorem pyLookup_setdefault_self {α : Type} (d : List (String × α)) (k : String) (v : α) :
    pyLookup (pySetdefault d k v) k = some ((pyLookup d k).getD v) := by
  induction d with
  | nil => simp [pySetdefault, pyLookup]
  | cons p t ih =>
    obtain ⟨k0, v0⟩ := p
    by_cases h : k0 = k
    · simp [pySetdefault, pyLookup, h]
    · simp [pySetdefault, pyLookup, h, ih]

theorem pyLookup_setdefault_ne {α : Type} (d : List (String × α)) (k1 k : String) (v : α)
    (h : k1 ≠ k) : pyLookup (pySetdefault d k1 v) k = pyLookup d k := by
  induction d with
  | nil => simp [pySetdefault, pyLookup, h]
  | cons p t ih =>
    obtain ⟨k0, v0⟩ := p
    by_cases h0 : k0 = k1
    · subst h0
      simp [pySetdefault, pyLookup, h]
    · simp [pySetdefault, pyLookup, h0, ih]

theorem pyLookup_eq_find? {α : Type} (d : List (String × α)) (k : String) :
    pyLookup d k = (d.find? (fun p => p.1 == k)).map Prod.snd := by
  induction d with
  | nil => simp [pyLookup]
  | cons p t ih =>
    obtain ⟨k0, v0⟩ := p
    by_cases h : k0 = k
    · simp [pyLookup, List.find?, h]
    · simp only [pyLookup, if_neg h, ih, List.find?]
      have : (k0 == k) = false := by simp [h]
      simp [this]

theorem pyLookup_foldl_update {α : Type} (e : List (String × α)) (d : List (String × α))
    (k : String) :
    pyLookup (e.foldl (fun a p => pyUpdate a p.1 p.2) d) k =
      ((e.reverse.find? (fun p => p.1 == k)).map Prod.snd).or (pyLookup d k) := by
  induction e generalizing d with
  | nil => simp
  | cons p t ih =>
    simp only [List.foldl_cons, List.reverse_cons, ih, List.find?_append]
    cases hf : t.reverse.find? (fun q => q.1 == k) with
    | some x => simp [Option.or]
    | none =>
      by_cases h : p.1 = k
      · subst h
        simp [List.find?, pyLookup_update_self, Option.or]
      · have hb : (p.1 == k) = false := by simp [h]
        simp [List.find?, hb, pyLookup_update_ne _ _ _ _ h, Option.or]

/-- Keys of a dict built only with `pyUpdate` stay distinct. -/
def nodupKeys {α : Type} (d : List (String × α)) : Prop :=
  (d.map Prod.fst).Nodup

theorem mem_fst_pyUpdate {α : Type} (d : List (String × α)) (k k1 : String) (v : α)
    (h : k ∈ (pyUpdate d k1 v).map Prod.fst) : k = k1 ∨ k ∈ d.map Prod.fst := by
  induction d with
  | nil =>
    simp only [pyUpdate, List.map_cons, List.map_nil, List.mem_singleton] at h
    exact Or.inl h
  | cons p t ih =>
    obtain ⟨k0, v0⟩ := p
    by_cases h0 : k0 = k1
    · simp only [pyUpdate, if_pos h0, List.map_cons] at h
      exact Or.inr h
    · simp only [pyUpdate, if_neg h0, List.map_cons, List.mem_cons] at h
      rcases h with h | h
      · exact Or.inr (by simp [h])
      · rcases ih h with h1 | h1
        · exact Or.inl h1
        · exact Or.inr (by simp [h1])

theorem nodupKeys_pyUpdate {α : Type} (d : List (String × α)) (k : String) (v : α)
    (h : nodupKeys d) : nodupKeys (pyUpdate d k v) := by
  induction d with
  | nil => simp [pyUpdate, nodupKeys]
  | cons p t ih =>
    obtain ⟨k0, v0⟩ := p
    simp only [nodupKeys, List.map_cons, List.nodup_cons] at h
    by_cases h0 : k0 = k
    · simpa [nodupKeys, pyUpdate, h0] using h
    · have ht := ih h.2
      simp only [nodupKeys, pyUpdate, if_neg h0, List.map_cons, List.nodup_cons]
      refine ⟨fun hmem => ?_, ht⟩
      rcases mem_fst_pyUpdate t k0 k v hmem with h1 | h1
      · exact h0 h1
      · exact h.1 h1

theorem find?_reverse_of_nodupKeys {α : Type} (d : List (String × α)) (k : String)
    (h : nodupKeys d) :
    d.reverse.find? (fun p => p.1 == k) = d.find? (fun p => p.1 == k) := by
  induction d with
  | nil => simp
  | cons p t ih =>
    simp only [nodupKeys, List.map_cons, List.nodup_cons] at h
    simp only [List.reverse_cons, List.find?_append, List.find?_cons]
    by_cases hk : p.1 = k
    · have hnone : t.find? (fun q => q.1 == k) = Option.none := by
        apply List.find?_eq_none.mpr
        intro q hq hbeq
        exact h.1 (by simpa [hk, (by simpa using hbeq : q.1 = k)] using
          List.mem_map_of_mem Prod.fst hq)
      have hnone2 : t.reverse.find? (fun q => q.1 == k) = Option.none := by
        apply List.find?_eq_none.mpr
        intro q hq hbeq
        exact List.find?_eq_none.mp hnone q (List.mem_reverse.mp hq) hbeq
      simp [hnone2, hk, Option.or]
    · have hb : (p.1 == k) = false := by simp [hk]
      simp [hb, ih h.2, Option.or]
      cases t.find? (fun q => q.1 == k) <;> simp

/-- Key presence in the dict model. -/
def present {α : Type} (d : List (String × α)) (k : String) : Prop :=
  (pyLookup d k).isSome

theorem present_pyUpdate_self {α : Type} (d : List (String × α)) (k : String) (v : α) :
    present (pyUpdate d k v) k := by
  simp [present, pyLookup_update_self]

theorem present_pyUpdate_of {α : Type} (d : List (String × α)) (k1 k : String) (v : α)
    (h : present d k) : present (pyUpdate d k1 v) k := by
  by_cases h1 : k1 = k
  · subst h1; simp [present, pyLookup_update_self]
  · simpa [present, pyLookup_update_ne _ _ _ _ h1] using h

theorem present_pySetdefault_self {α : Type} (d : List (String × α)) (k : String) (v : α) :
    present (pySetdefault d k v) k := by
  simp [present, pyLookup_setdefault_self]

theorem present_pySetdefault_of {α : Type} (d : List (String × α)) (k1 k : String) (v : α)
    (h : present d k) : present (pySetdefault d k1 v) k := by
  by_cases h1 : k1 = k
  · subst h1; simp [present, pyLookup_setdefault_self]
  · simpa [present, pyLookup_setdefault_ne _ _ _ _ h1] using h

theorem present_canonicalStep_of (d : List (String × Option String))
    (p : String × String) (k : String) (h : present d k) :
    present (canonicalStep d p) k := by
  unfold canonicalStep
  by_cases h2 : !(p.2 = "")
  · simpa [h2] using present_pyUpdate_of _ _ _ _ h
  · simpa [h2] using present_pySetdefault_of _ _ _ _ h

theorem present_canonicalStep_self (d : List (String × Option String))
    (p : String × String) : present (canonicalStep d p) (pyNormKey p.1) := by
  unfold canonicalStep
  by_cases h2 : !(p.2 = "")
  · simpa [h2] using present_pyUpdate_self d (pyNormKey p.1) (some p.2)
  · simpa [h2] using present_pySetdefault_self d (pyNormKey p.1) (some "")

theorem present_foldl_canonical_of (e : List (String × String))
    (d : List (String × Option String)) (k : String) (h : present d k) :
    present (e.foldl canonicalStep d) k := by
  induction e generalizing d with
  | nil => simpa using h
  | cons p t ih => exact ih _ (present_canonicalStep_of _ _ _ h)

theorem canonicalStep_nonempty (d : List (String × Option String))
    (name v : String) (hv : v ≠ "") :
    canonicalStep d (name, v) = pyUpdate d (pyNormKey name) (some v) := by
  simp [canonicalStep, hv]

theorem present_foldl_canonical_of_mem (e : List (String × String))
    (d : List (String × Option String)) (name : String)
    (h : name ∈ e.map Prod.fst) :
    present (e.foldl canonicalStep d) (pyNormKey name) := by
  induction e generalizing d with
  | nil => simp at h
  | cons p t ih =>
    simp only [List.map_cons, List.mem_cons] at h
    simp only [List.foldl_cons]
    rcases h with h | h
    · subst h
      exact present_foldl_canonical_of t (canonicalStep d p) _
        (present_canonicalStep_self d p)
    · exact ih (canonicalStep d p) h

theorem pyLookup_foldl_canonical_of_not_mem (e : List (String × String))
    (d : List (String × Option String)) (k : String)
    (h : ∀ q ∈ e, pyNormKey q.1 ≠ k) :
    pyLookup (e.foldl canonicalStep d) k = pyLookup d k := by
  induction e generalizing d with
  | nil => simp
  | cons p t ih =>
    simp only [List.foldl_cons]
    rw [ih _ (fun q hq => h q (List.mem_cons_of_mem _ hq))]
    have hp := h p (List.mem_cons_self _ _)
    unfold canonicalStep
    by_cases h2 : p.2 = ""
    · simp only [h2]
      simpa using pyLookup_setdefault_ne d _ k (some "") hp
    · simp only [h2]
      simpa [h2] using pyLookup_update_ne d _ k (some p.2) hp

theorem pyLookup_foldl_canonical_of_mem (e : List (String × String))
    (d : List (String × Option String)) (name : String) (v : String)
    (hmem : (name, v) ∈ e) (hv : v ≠ "")
    (hdist : (e.map (fun p => pyNormKey p.1)).Pairwise (fun a b => a ≠ b)) :
    pyLookup (e.foldl canonicalStep d) (pyNormKey name) = some (some v) := by
  induction e generalizing d with
  | nil => simp at hmem
  | cons p t ih =>
    simp only [List.map_cons, List.pairwise_cons] at hdist
    simp only [List.foldl_cons]
    rcases List.mem_cons.mp hmem with h | h
    · subst h
      rw [pyLookup_foldl_canonical_of_not_mem t _ _
        (fun q hq => (hdist.1 _ (List.mem_map_of_mem _ hq)).symm)]
      rw [canonicalStep_nonempty d name v hv]
      exact pyLookup_update_self _ _ _
    · exact ih (canonicalStep d p) h hdist.2

theorem pyLookup_filter_key {α : Type} (d : List (String × α)) (q : String → Bool)
    (k : String) :
    pyLookup (d.filter (fun p => q p.1)) k =
      if q k then pyLookup d k else Option.none := by
  induction d with
  | nil => simp [pyLookup]
  | cons p t ih =>
    obtain ⟨k0, v0⟩ := p
    by_cases h0 : k0 = k
    · subst h0
      by_cases hq : q k0
      · simp [List.filter, hq, pyLookup]
      · simpa [List.filter, hq, pyLookup] using ih
    · by_cases hq : q k0
      · simpa [List.filter, hq, pyLookup, h0] using ih
      · simpa [List.filter, hq, pyLookup, h0] using ih

theorem pyLookup_map_val {α β : Type} (d : List (String × α)) (f : α → β) (k : String) :
    pyLookup (d.map (fun p => (p.1, f p.2))) k = (pyLookup d k).map f := by
  induction d with
  | nil => simp [pyLookup]
  | cons p t ih =>
    obtain ⟨k0, v0⟩ := p
    by_cases h0 : k0 = k
    · simp [pyLookup, h0]
    · simp [pyLookup, h0, ih]

/-! ### Claim theorems -/

/-- C1: for every decoded document, every top-level field value of the
record returned by `extract_parameters` is a string (`some _`), never
the null marker, and every value of every variant mapping is a string as
well. -/
theorem C1_no_null_invariant (text : String)
    (tables : List (List (List (Option String)))) :
    (∀ p ∈ (extractParameters text tables).fields, p.2.isSome = true) ∧
    (∀ vv ∈ (extractParameters text tables).variants, ∀ q ∈ vv, q.2.isSome = true) := by
  constructor
  · intro p hp
    simp only [extractParameters, extractScalarFields, List.mem_map] at hp
    obtain ⟨q, _, rfl⟩ := hp
    simp [ensureStr]
  · intro vv hvv q hq
    simp only [extractParameters, normalizedVariants, List.mem_map] at hvv
    obtain ⟨w, _, rfl⟩ := hvv
    simp only [List.mem_map] at hq
    obtain ⟨r, _, rfl⟩ := hq
    simp

theorem C1_no_null_invariant_witness :
    (("power_tolerance", (some "" : Option String)) ∈
      (extractParameters "" []).fields) ∧
    (("power_tolerance", (some "" : Option String)).2.isSome = true) :=
  ⟨by decide, (C1_no_null_invariant "" []).1 _ (by decide)⟩

/-- Helper: a canonical entry with an empty value is a pure
`setdefault` (line 321). -/
theorem canonicalStep_empty (d : List (String × Option String)) (name : String) :
    canonicalStep d (name, "") = pySetdefault d (pyNormKey name) (some "") := by
  simp [canonicalStep]

/-- Helper: a canonical-merge step for a different normalized key leaves
a lookup unchanged. -/
theorem canonicalStep_lookup_ne (d : List (String × Option String))
    (p : String × String) (k : String) (h : pyNormKey p.1 ≠ k) :
    pyLookup (canonicalStep d p) k = pyLookup d k := by
  unfold canonicalStep
  by_cases h2 : p.2 = ""
  · simp only [h2]
    simpa using pyLookup_setdefault_ne d _ k (some "") h
  · simp only [h2]
    simpa [h2] using pyLookup_update_ne d _ k (some p.2) h

/-- Helper: folding the canonical entries over a base dict, an entry
with an empty value yields `setdefault` semantics at its normalized key:
the base value is kept if present, else the key is bound to `""`. -/
theorem pyLookup_foldl_canonical_setdefault (e : List (String × String))
    (d : List (String × Option String)) (name : String)
    (hmem : (name, "") ∈ e)
    (hdist : (e.map (fun p => pyNormKey p.1)).Pairwise (fun a b => a ≠ b)) :
    pyLookup (e.foldl canonicalStep d) (pyNormKey name) =
      some ((pyLookup d (pyNormKey name)).getD (some "")) := by
  induction e generalizing d with
  | nil => simp at hmem
  | cons p t ih =>
    simp only [List.map_cons, List.pairwise_cons] at hdist
    simp only [List.foldl_cons]
    rcases List.mem_cons.mp hmem with h | h
    · subst h
      rw [pyLookup_foldl_canonical_of_not_mem t _ _
        (fun q hq => (hdist.1 _ (List.mem_map_of_mem _ hq)).symm)]
      rw [canonicalStep_empty]
      exact pyLookup_setdefault_self _ _ _
    · have hmm : pyNormKey name ∈ t.map (fun q => pyNormKey q.1) := by
        have h2 := List.mem_map_of_mem (fun q : String × String => pyNormKey q.1) h
        simpa using h2
      have hne : pyNormKey p.1 ≠ pyNormKey name := hdist.1 _ hmm
      rw [ih (canonicalStep d p) h hdist.2, canonicalStep_lookup_ne d p _ hne]

/-- C5 (amended): every canonical field name, after key normalization,
is present as a key in the returned field map; when none of its patterns
matched (empty canonical value), the key holds the value the generic
table/line extractors produced for it, or the empty string when they
produced none (`out.setdefault`, line 321). -/
theorem C5_canonical_key_default (text : String)
    (tables : List (List (List (Option String)))) (name : String)
    (hname : name ∈ canonicalNames) :
    present ((extractParameters text tables).fields) (pyNormKey name) ∧
    ((name, "") ∈ canonicalEntries text →
      pyLookup ((extractParameters text tables).fields) (pyNormKey name) =
        some (some ((pyLookup (genericKv text tables)
          (pyNormKey name)).getD ""))) := by
  have hq : ∀ n ∈ canonicalNames, (specialKeys.contains (pyNormKey n)) = false := by
    decide
  have hq2 := hq name hname
  have hfilter :
      pyLookup ((mergedFieldDict text tables).filter
          (fun p => !(specialKeys.contains p.1))) (pyNormKey name) =
        pyLookup (mergedFieldDict text tables) (pyNormKey name) := by
    rw [pyLookup_filter_key (mergedFieldDict text tables)
      (fun x => !(specialKeys.contains x)) (pyNormKey name)]
    rw [hq2]
    simp
  constructor
  · have h1 : present (mergedFieldDict text tables) (pyNormKey name) := by
      apply present_foldl_canonical_of_mem
      have hfst : (canonicalEntries text).map Prod.fst = canonicalNames := rfl
      rw [hfst]
      exact hname
    show present _ _
    simp only [extractParameters, extractScalarFields, present, pyLookup_map_val,
      hfilter]
    obtain ⟨v, hv⟩ := Option.isSome_iff_exists.mp h1
    rw [hv]
    rfl
  · intro hempty
    have hdist : ((canonicalEntries text).map (fun p => pyNormKey p.1)).Pairwise
        (fun a b => a ≠ b) := by
      have h2 : (canonicalEntries text).map (fun p => pyNormKey p.1) =
          canonicalNames.map pyNormKey := rfl
      rw [h2]
      decide
    have hfold := pyLookup_foldl_canonical_setdefault (canonicalEntries text)
      ((genericKv text tables).map (fun p => (p.1, some p.2))) name hempty hdist
    have hout0 := pyLookup_map_val (genericKv text tables) Option.some
      (pyNormKey name)
    rw [hout0] at hfold
    show pyLookup (extractScalarFields text tables) _ = _
    simp only [extractScalarFields, pyLookup_map_val, hfilter]
    rw [show pyLookup (mergedFieldDict text tables) (pyNormKey name) =
      some (((pyLookup (genericKv text tables) (pyNormKey name)).map
        Option.some).getD (some "")) from hfold]
    cases pyLookup (genericKv text tables) (pyNormKey name) <;> rfl

theorem C5_canonical_key_default_witness :
    ("temperature_noct" ∈ canonicalNames) ∧
    present ((extractParameters "Temperature NOCT: 45" []).fields)
      (pyNormKey "temperature_noct") ∧
    pyLookup ((extractParameters "Temperature NOCT: 45" []).fields)
      (pyNormKey "temperature_noct") =
      some (some ((pyLookup (genericKv "Temperature NOCT: 45" [])
        (pyNormKey "temperature_noct")).getD "")) :=
  ⟨by decide,
   (C5_canonical_key_default "Temperature NOCT: 45" [] "temperature_noct"
     (by decide)).1,
   (C5_canonical_key_default "Temperature NOCT: 45" [] "temperature_noct"
     (by decide)).2 (by decide)⟩

/-- C5 counterexample: for the text `"Temperature NOCT: 45"` none of the
`temperature_noct` patterns matches (its canonical value is empty), yet
the returned field map binds `temperature_noct` to the generic
line-derived value `"45"` — not to the empty string the claim
requires. -/
theorem C5_counterexample :
    ("temperature_noct", "") ∈ canonicalEntries "Temperature NOCT: 45" ∧
    pyLookup ((extractParameters "Temperature NOCT: 45" []).fields)
      (pyNormKey "temperature_noct") = some (some "45") ∧
    some (some "45") ≠ (some (some "") : Option (Option String)) :=
  ⟨by decide, by decide, by decide⟩

/-- C4: whenever the canonical extractor yields a non-empty value for a
field, the final field map binds the field's normalized key to exactly
that canonical value, whatever the generic extractors produced there. -/
theorem C4_canonical_override (text : String)
    (tables : List (List (List (Option String)))) (name v : String)
    (hmem : (name, v) ∈ canonicalEntries text) (hv : v ≠ "") :
    pyLookup ((extractParameters text tables).fields) (pyNormKey name) =
      some (some v) := by
  have hname : name ∈ canonicalNames := by
    have hfst : (canonicalEntries text).map Prod.fst = canonicalNames := rfl
    rw [← hfst]
    exact List.mem_map_of_mem _ hmem
  have hdist : ((canonicalEntries text).map (fun p => pyNormKey p.1)).Pairwise
      (fun a b => a ≠ b) := by
    have h2 : (canonicalEntries text).map (fun p => pyNormKey p.1) =
        canonicalNames.map pyNormKey := rfl
    rw [h2]
    decide
  have hstep : pyLookup (mergedFieldDict text tables) (pyNormKey name) =
      some (some v) :=
    pyLookup_foldl_canonical_of_mem _ _ _ _ hmem hv hdist
  have hq : ∀ n ∈ canonicalNames, (specialKeys.contains (pyNormKey n)) = false := by
    decide
  have hq2 := hq name hname
  show pyLookup (extractScalarFields text tables) _ = _
  simp only [extractScalarFields, pyLookup_map_val]
  rw [pyLookup_filter_key (mergedFieldDict text tables)
    (fun x => !(specialKeys.contains x)) (pyNormKey name), hq2]
  simp [hstep, ensureStr]

theorem C4_canonical_override_witness :
    (("weight", "5kg-canonical") ∈
      canonicalEntries "Weight 5kg-canonical\nWeight: 5kg-generic") ∧
    pyLookup (extractKvFromLines "Weight 5kg-canonical\nWeight: 5kg-generic")
      "weight" = some "5kg-generic" ∧
    pyLookup ((extractParameters "Weight 5kg-canonical\nWeight: 5kg-generic" []).fields)
      (pyNormKey "weight") = some (some "5kg-canonical") :=
  ⟨by decide, by decide,
   C4_canonical_override "Weight 5kg-canonical\nWeight: 5kg-generic" []
     "weight" "5kg-canonical" (by decide) (by decide)⟩

/-- C8: the record's variants are Format A's result whenever that is
non-empty, and Format B's result exactly when Format A returns zero
variants (both undergo the per-variant string normalization pass). -/
theorem C8_format_fallback (text : String)
    (tables : List (List (List (Option String)))) :
    (parseJinkoLikeVariants text ≠ [] →
      (extractParameters text tables).variants =
        (parseJinkoLikeVariants text).map
          (fun vv => vv.map (fun q => (q.1, some q.2)))) ∧
    (parseJinkoLikeVariants text = [] →
      (extractParameters text tables).variants =
        (parseRenewsysLikeVariants text).map
          (fun vv => vv.map (fun q => (q.1, some q.2)))) := by
  constructor <;> intro h <;>
    simp [extractParameters, normalizedVariants, chosenVariants, h]

theorem C8_format_fallback_witness :
    (parseJinkoLikeVariants "Maximum Power - Pmax 570 575 580 585 590" ≠ []) ∧
    (extractParameters "Maximum Power - Pmax 570 575 580 585 590" []).variants =
      (parseJinkoLikeVariants "Maximum Power - Pmax 570 575 580 585 590").map
        (fun vv => vv.map (fun q => (q.1, some q.2))) :=
  ⟨by decide, (C8_format_fallback "Maximum Power - Pmax 570 575 580 585 590" []).1
    (by decide)⟩

/-- Helper: `_parse_row_numbers` returns nothing or exactly `n` tokens. -/
theorem parseRowNumbers_length (line : String) (n : Nat) :
    parseRowNumbers line n = [] ∨ (parseRowNumbers line n).length = n := by
  unfold parseRowNumbers
  by_cases h : n ≤ (numTokens line.data).length
  · right
    simp [h, Nat.sub_sub_self h]
  · left
    simp [h]

/-- The fixed key list of a variant mapping. -/
def variantKeys : List String :=
  ["pmax_w", "vmp_v", "imp_a", "voc_v", "isc_a", "efficiency_pct",
   "noct_pmax_w", "noct_vmp_v", "noct_imp_a", "noct_voc_v", "noct_isc_a"]

/-- C10: Format A returns either zero or exactly five variants, and
every variant mapping has exactly the eleven fixed keys in order. -/
theorem C10_jinko_shape (text : String) :
    (parseJinkoLikeVariants text = [] ∨ (parseJinkoLikeVariants text).length = 5) ∧
    (∀ v ∈ parseJinkoLikeVariants text, v.map Prod.fst = variantKeys) := by
  constructor
  · by_cases h : jinkoMetricTokens text "Maximum Power - Pmax" = []
    · left
      simp [parseJinkoLikeVariants, h]
    · right
      have hlen : (jinkoMetricTokens text "Maximum Power - Pmax").length = 5 := by
        rcases parseRowNumbers_length (jinkoFindLine text "Maximum Power - Pmax") 5 with
          h5 | h5
        · exact absurd h5 h
        · exact h5
      simp [parseJinkoLikeVariants, h, hlen]
  · intro v hv
    by_cases h : jinkoMetricTokens text "Maximum Power - Pmax" = []
    · simp [parseJinkoLikeVariants, h] at hv
    · simp only [parseJinkoLikeVariants, if_neg h, List.mem_map] at hv
      obtain ⟨ip, _, rfl⟩ := hv
      rfl

theorem C10_jinko_shape_witness :
    ((parseJinkoLikeVariants "Maximum Power - Pmax 570 575 580 585 590").getD 0
      []).map Prod.fst = variantKeys :=
  (C10_jinko_shape "Maximum Power - Pmax 570 575 580 585 590").2 _ (by decide)

theorem nodupKeys_registerKV (out : List (String × String)) (k r : String)
    (h : nodupKeys out) : nodupKeys (registerKV out k r) := by
  unfold registerKV
  split
  · exact nodupKeys_pyUpdate _ _ _ h
  · split
    · exact nodupKeys_pyUpdate _ _ _ h
    · exact h

theorem nodupKeys_lineKvStep (out : List (String × String)) (line : String)
    (h : nodupKeys out) : nodupKeys (lineKvStep out line) := by
  unfold lineKvStep
  dsimp only
  split
  · exact h
  · split
    · exact h
    · split
      · exact h
      · exact nodupKeys_registerKV _ _ _ h

theorem nodupKeys_tableRowStep (out : List (String × String))
    (row : List (Option String)) (h : nodupKeys out) :
    nodupKeys (tableRowStep out row) := by
  unfold tableRowStep
  dsimp only
  split
  · split
    · exact h
    · exact nodupKeys_registerKV _ _ _ h
  · exact h

theorem nodupKeys_foldl {β : Type} (step : List (String × String) → β →
    List (String × String))
    (hstep : ∀ a x, nodupKeys a → nodupKeys (step a x)) (l : List β)
    (d : List (String × String)) (hd : nodupKeys d) :
    nodupKeys (l.foldl step d) := by
  induction l generalizing d with
  | nil => exact hd
  | cons x t ih => exact ih _ (hstep _ _ hd)

theorem nodupKeys_extractKvFromLines (text : String) :
    nodupKeys (extractKvFromLines text) := by
  exact nodupKeys_foldl _ nodupKeys_lineKvStep _ _ (by simp [nodupKeys])

theorem nodupKeys_extractKvFromTables (tables : List (List (List (Option String)))) :
    nodupKeys (extractKvFromTables tables) := by
  refine nodupKeys_foldl _ ?_ _ _ (by simp [nodupKeys])
  intro a x ha
  exact nodupKeys_foldl _ nodupKeys_tableRowStep _ _ ha

/-- Lookup in a dict with distinct keys built by updates. -/
theorem pyLookup_pyDictUpdate {α : Type} (d e : List (String × α)) (k : String)
    (he : nodupKeys e) :
    pyLookup (pyDictUpdate d e) k = (pyLookup e k).or (pyLookup d k) := by
  unfold pyDictUpdate
  rw [pyLookup_foldl_update, find?_reverse_of_nodupKeys _ _ he, ← pyLookup_eq_find?]

/-- C2 (amended): when the table map and the line map are merged by
`kv.update(...)`, a key bound by the line extractor takes the
line-derived value, overwriting any table-derived value; the
table-derived value is used exactly for the keys the line extractor
leaves absent. -/
theorem C2_line_overwrites_table (text : String)
    (tables : List (List (List (Option String)))) (k : String) :
    pyLookup (genericKv text tables) k =
      (pyLookup (extractKvFromLines text) k).or
        (pyLookup (extractKvFromTables tables) k) := by
  unfold genericKv
  rw [pyLookup_pyDictUpdate _ _ _ (nodupKeys_extractKvFromLines text),
    pyLookup_pyDictUpdate _ _ _ (nodupKeys_extractKvFromTables tables)]
  cases pyLookup (extractKvFromLines text) k <;>
    cases pyLookup (extractKvFromTables tables) k <;>
      simp [Option.or, pyLookup]

/-- C2 counterexample: the table extractor binds `alpha` to the
non-empty value `T-val` and the line extractor binds the same key, yet
the final record holds the line value `L-val`, not the table value the
claim requires to be kept. -/
theorem C2_counterexample :
    extractKvFromTables [[[some "Alpha", some "T-val"]]] = [("alpha", "T-val")] ∧
    pyLookup ((extractParameters "Alpha: L-val"
        [[[some "Alpha", some "T-val"]]]).fields) "alpha" =
      some (some "L-val") := ⟨by decide, by decide⟩

/-- Helper: the Format-A variant at index `idx`, written out entrywise.
Each metric contributes the token at position `idx` of its trailing-five
token list (empty string when out of range). -/
theorem parseJinko_variant_at (text : String) (idx : Nat)
    (h : idx < (parseJinkoLikeVariants text).length) :
    (parseJinkoLikeVariants text).getD idx [] =
      [("pmax_w", (jinkoMetricTokens text "Maximum Power - Pmax").getD idx ""),
       ("vmp_v", (jinkoMetricTokens text "Maximum Power Voltage - Vmp").getD idx ""),
       ("imp_a", (jinkoMetricTokens text "Maximum Power Current - Imp").getD idx ""),
       ("voc_v", (jinkoMetricTokens text "Open-circuit Voltage - Voc").getD idx ""),
       ("isc_a", (jinkoMetricTokens text "Short-circuit Current - Isc").getD idx ""),
       ("efficiency_pct", (jinkoMetricTokens text "Module Efficiency STC").getD idx ""),
       ("noct_pmax_w", (jinkoNoctLists text).1.getD idx ""),
       ("noct_vmp_v", (jinkoNoctLists text).2.1.getD idx ""),
       ("noct_imp_a", (jinkoNoctLists text).2.2.1.getD idx ""),
       ("noct_voc_v", (jinkoNoctLists text).2.2.2.1.getD idx ""),
       ("noct_isc_a", (jinkoNoctLists text).2.2.2.2.getD idx "")] := by
  have hp : ¬ (jinkoMetricTokens text "Maximum Power - Pmax" = []) := by
    intro h0
    rw [show parseJinkoLikeVariants text = [] by
      simp [parseJinkoLikeVariants, h0]] at h
    simp at h
  have hlen : (parseJinkoLikeVariants text).length =
      (jinkoMetricTokens text "Maximum Power - Pmax").length := by
    simp [parseJinkoLikeVariants, hp]
  have hidx : idx < (jinkoMetricTokens text "Maximum Power - Pmax").length := by
    rw [← hlen]; exact h
  conv_lhs => rw [show parseJinkoLikeVariants text =
    (jinkoMetricTokens text "Maximum Power - Pmax").enum.map (fun ip =>
      [("pmax_w", ip.2),
       ("vmp_v", (jinkoMetricTokens text "Maximum Power Voltage - Vmp").getD ip.1 ""),
       ("imp_a", (jinkoMetricTokens text "Maximum Power Current - Imp").getD ip.1 ""),
       ("voc_v", (jinkoMetricTokens text "Open-circuit Voltage - Voc").getD ip.1 ""),
       ("isc_a", (jinkoMetricTokens text "Short-circuit Current - Isc").getD ip.1 ""),
       ("efficiency_pct", (jinkoMetricTokens text "Module Efficiency STC").getD ip.1 ""),
       ("noct_pmax_w", (jinkoNoctLists text).1.getD ip.1 ""),
       ("noct_vmp_v", (jinkoNoctLists text).2.1.getD ip.1 ""),
       ("noct_imp_a", (jinkoNoctLists text).2.2.1.getD ip.1 ""),
       ("noct_voc_v", (jinkoNoctLists text).2.2.2.1.getD ip.1 ""),
       ("noct_isc_a", (jinkoNoctLists text).2.2.2.2.getD ip.1 "")]) by
    simp [parseJinkoLikeVariants, hp]]
  rw [List.getD_eq_getElem?_getD, List.getElem?_map, List.getElem?_enum,
    List.getElem?_eq_getElem hidx]
  simp only [Option.map_some', Option.getD_some]
  rw [show (jinkoMetricTokens text "Maximum Power - Pmax").getD idx "" =
    (jinkoMetricTokens text "Maximum Power - Pmax")[idx] from by
      rw [List.getD_eq_getElem?_getD, List.getElem?_eq_getElem hidx]; rfl]

/-- Helper: a metric's trailing-token list is empty exactly when its
line has fewer than five numeric tokens. -/
theorem jinkoMetricTokens_eq_nil_iff (text lbl : String) :
    jinkoMetricTokens text lbl = [] ↔
      (numTokens (jinkoFindLine text lbl).data).length < 5 := by
  unfold jinkoMetricTokens parseRowNumbers
  by_cases h : 5 ≤ (numTokens (jinkoFindLine text lbl).data).length
  · simp only [h, if_true]
    constructor
    · intro h0
      have hlen := congrArg List.length h0
      simp [Nat.sub_sub_self h] at hlen
    · intro h0
      omega
  · simp only [h, if_false]
    simp
    omega

/-- Helper: Format A is empty exactly when its Pmax token list is. -/
theorem parseJinko_eq_nil_iff (text : String) :
    parseJinkoLikeVariants text = [] ↔
      jinkoMetricTokens text "Maximum Power - Pmax" = [] := by
  by_cases h : jinkoMetricTokens text "Maximum Power - Pmax" = [] <;>
    simp [parseJinkoLikeVariants, h]

/-- Helper: the eleven lookups on a literal variant row. -/
theorem pyLookup_variantRow (a b c d e f g h i j k : String) :
    pyLookup [("pmax_w", a), ("vmp_v", b), ("imp_a", c), ("voc_v", d),
      ("isc_a", e), ("efficiency_pct", f), ("noct_pmax_w", g),
      ("noct_vmp_v", h), ("noct_imp_a", i), ("noct_voc_v", j),
      ("noct_isc_a", k)] "pmax_w" = some a ∧
    pyLookup [("pmax_w", a), ("vmp_v", b), ("imp_a", c), ("voc_v", d),
      ("isc_a", e), ("efficiency_pct", f), ("noct_pmax_w", g),
      ("noct_vmp_v", h), ("noct_imp_a", i), ("noct_voc_v", j),
      ("noct_isc_a", k)] "vmp_v" = some b ∧
    pyLookup [("pmax_w", a), ("vmp_v", b), ("imp_a", c), ("voc_v", d),
      ("isc_a", e), ("efficiency_pct", f), ("noct_pmax_w", g),
      ("noct_vmp_v", h), ("noct_imp_a", i), ("noct_voc_v", j),
      ("noct_isc_a", k)] "imp_a" = some c ∧
    pyLookup [("pmax_w", a), ("vmp_v", b), ("imp_a", c), ("voc_v", d),
      ("isc_a", e), ("efficiency_pct", f), ("noct_pmax_w", g),
      ("noct_vmp_v", h), ("noct_imp_a", i), ("noct_voc_v", j),
      ("noct_isc_a", k)] "voc_v" = some d ∧
    pyLookup [("pmax_w", a), ("vmp_v", b), ("imp_a", c), ("voc_v", d),
      ("isc_a", e), ("efficiency_pct", f), ("noct_pmax_w", g),
      ("noct_vmp_v", h), ("noct_imp_a", i), ("noct_voc_v", j),
      ("noct_isc_a", k)] "isc_a" = some e ∧
    pyLookup [("pmax_w", a), ("vmp_v", b), ("imp_a", c), ("voc_v", d),
      ("isc_a", e), ("efficiency_pct", f), ("noct_pmax_w", g),
      ("noct_vmp_v", h), ("noct_imp_a", i), ("noct_voc_v", j),
      ("noct_isc_a", k)] "efficiency_pct" = some f ∧
    pyLookup [("pmax_w", a), ("vmp_v", b), ("imp_a", c), ("voc_v", d),
      ("isc_a", e), ("efficiency_pct", f), ("noct_pmax_w", g),
      ("noct_vmp_v", h), ("noct_imp_a", i), ("noct_voc_v", j),
      ("noct_isc_a", k)] "noct_pmax_w" = some g ∧
    pyLookup [("pmax_w", a), ("vmp_v", b), ("imp_a", c), ("voc_v", d),
      ("isc_a", e), ("efficiency_pct", f), ("noct_pmax_w", g),
      ("noct_vmp_v", h), ("noct_imp_a", i), ("noct_voc_v", j),
      ("noct_isc_a", k)] "noct_vmp_v" = some h ∧
    pyLookup [("pmax_w", a), ("vmp_v", b), ("imp_a", c), ("voc_v", d),
      ("isc_a", e), ("efficiency_pct", f), ("noct_pmax_w", g),
      ("noct_vmp_v", h), ("noct_imp_a", i), ("noct_voc_v", j),
      ("noct_isc_a", k)] "noct_imp_a" = some i ∧
    pyLookup [("pmax_w", a), ("vmp_v", b), ("imp_a", c), ("voc_v", d),
      ("isc_a", e), ("efficiency_pct", f), ("noct_pmax_w", g),
      ("noct_vmp_v", h), ("noct_imp_a", i), ("noct_voc_v", j),
      ("noct_isc_a", k)] "noct_voc_v" = some j ∧
    pyLookup [("pmax_w", a), ("vmp_v", b), ("imp_a", c), ("voc_v", d),
      ("isc_a", e), ("efficiency_pct", f), ("noct_pmax_w", g),
      ("noct_vmp_v", h), ("noct_imp_a", i), ("noct_voc_v", j),
      ("noct_isc_a", k)] "noct_isc_a" = some k :=
  ⟨rfl, rfl, rfl, rfl, rfl, rfl, rfl, rfl, rfl, rfl, rfl⟩

/-- C3 (amended): each located metric line contributes its trailing
numeric tokens keeping only the last five (a line with fewer than five
numeric tokens contributes none), and Format A returns the empty variant
list exactly when the Pmax line yields fewer than five numeric tokens. -/
theorem C3_jinko_row_truncation (text : String) :
    (parseJinkoLikeVariants text = [] ↔
      (numTokens (jinkoFindLine text "Maximum Power - Pmax").data).length < 5) ∧
    (∀ idx, idx < (parseJinkoLikeVariants text).length →
      pyLookup ((parseJinkoLikeVariants text).getD idx []) "pmax_w" =
        some ((jinkoMetricTokens text "Maximum Power - Pmax").getD idx "") ∧
      pyLookup ((parseJinkoLikeVariants text).getD idx []) "vmp_v" =
        some ((jinkoMetricTokens text "Maximum Power Voltage - Vmp").getD idx "") ∧
      pyLookup ((parseJinkoLikeVariants text).getD idx []) "imp_a" =
        some ((jinkoMetricTokens text "Maximum Power Current - Imp").getD idx "") ∧
      pyLookup ((parseJinkoLikeVariants text).getD idx []) "voc_v" =
        some ((jinkoMetricTokens text "Open-circuit Voltage - Voc").getD idx "") ∧
      pyLookup ((parseJinkoLikeVariants text).getD idx []) "isc_a" =
        some ((jinkoMetricTokens text "Short-circuit Current - Isc").getD idx "") ∧
      pyLookup ((parseJinkoLikeVariants text).getD idx []) "efficiency_pct" =
        some ((jinkoMetricTokens text "Module Efficiency STC").getD idx "")) := by
  constructor
  · exact (parseJinko_eq_nil_iff text).trans (jinkoMetricTokens_eq_nil_iff text _)
  · intro idx hidx
    rw [parseJinko_variant_at text idx hidx]
    refine ⟨?_, ?_, ?_, ?_, ?_, ?_⟩ <;> exact rfl

theorem C3_jinko_row_truncation_witness :
    pyLookup ((parseJinkoLikeVariants
        "Maximum Power - Pmax 570 575 580 585 590").getD 2 []) "pmax_w" =
      some "580" :=
  (((C3_jinko_row_truncation "Maximum Power - Pmax 570 575 580 585 590").2 2
    (by decide)).1).trans (by decide)

/-- C3 counterexample: a Pmax line carrying three numeric tokens (so the
claim's `N` would be 3 and three variants would be produced) makes
Format A return no variants at all, because `_parse_row_numbers` always
uses the constant 5 and discards lines with fewer than five tokens. -/
theorem C3_counterexample :
    numTokens (jinkoFindLine "Maximum Power - Pmax 570 575 580"
        "Maximum Power - Pmax").data = ["570", "575", "580"] ∧
    parseJinkoLikeVariants "Maximum Power - Pmax 570 575 580" = [] :=
  ⟨by decide, by decide⟩

/-- Helper: a line with at least five numeric tokens keeps exactly five. -/
theorem parseRowNumbers_len_of_ge (line : String)
    (h : 5 ≤ (numTokens line.data).length) :
    (parseRowNumbers line 5).length = 5 := by
  unfold parseRowNumbers
  simp [h, Nat.sub_sub_self h]

/-- C9: when Format A produces variants and the first line equal to
`"Specifications (NOCT)"` is followed by five lines each carrying at
least five numeric tokens, the variant at index `idx` carries the
`idx`-th kept token of those five lines as its NOCT Pmax/Vmp/Imp/Voc/Isc
fields, in that fixed order, positionally aligned with the STC `pmax_w`
token at the same index (each kept-token row having exactly five
entries). -/
theorem C9_noct_alignment (text : String) (i : Nat)
    (hfind : (normLines text).findIdx?
        (fun l => pyStrip l == "Specifications (NOCT)") = some i)
    (hlen : i + 5 < (normLines text).length)
    (htok : ∀ k, k < 5 →
      5 ≤ (numTokens ((normLines text).getD (i + 1 + k) "").data).length)
    (_hA : parseJinkoLikeVariants text ≠ []) :
    ∀ idx, idx < (parseJinkoLikeVariants text).length →
      pyLookup ((parseJinkoLikeVariants text).getD idx []) "pmax_w" =
        some ((jinkoMetricTokens text "Maximum Power - Pmax").getD idx "") ∧
      pyLookup ((parseJinkoLikeVariants text).getD idx []) "noct_pmax_w" =
        some ((parseRowNumbers ((normLines text).getD (i + 1) "") 5).getD idx "") ∧
      pyLookup ((parseJinkoLikeVariants text).getD idx []) "noct_vmp_v" =
        some ((parseRowNumbers ((normLines text).getD (i + 2) "") 5).getD idx "") ∧
      pyLookup ((parseJinkoLikeVariants text).getD idx []) "noct_imp_a" =
        some ((parseRowNumbers ((normLines text).getD (i + 3) "") 5).getD idx "") ∧
      pyLookup ((parseJinkoLikeVariants text).getD idx []) "noct_voc_v" =
        some ((parseRowNumbers ((normLines text).getD (i + 4) "") 5).getD idx "") ∧
      pyLookup ((parseJinkoLikeVariants text).getD idx []) "noct_isc_a" =
        some ((parseRowNumbers ((normLines text).getD (i + 5) "") 5).getD idx "") ∧
      (∀ k, k < 5 →
        (parseRowNumbers ((normLines text).getD (i + 1 + k) "") 5).length = 5) := by
  have hnoct : jinkoNoctLists text =
      (parseRowNumbers ((normLines text).getD (i + 1) "") 5,
       parseRowNumbers ((normLines text).getD (i + 2) "") 5,
       parseRowNumbers ((normLines text).getD (i + 3) "") 5,
       parseRowNumbers ((normLines text).getD (i + 4) "") 5,
       parseRowNumbers ((normLines text).getD (i + 5) "") 5) := by
    unfold jinkoNoctLists
    have g1 : i + 1 < (normLines text).length := by omega
    have g2 : i + 2 < (normLines text).length := by omega
    have g3 : i + 3 < (normLines text).length := by omega
    have g4 : i + 4 < (normLines text).length := by omega
    have g5 : i + 5 < (normLines text).length := by omega
    simp [hfind, g1, g2, g3, g4, g5]
  intro idx hidx
  have hrow := parseJinko_variant_at text idx hidx
  rw [hnoct] at hrow
  rw [hrow]
  refine ⟨rfl, rfl, rfl, rfl, rfl, rfl, ?_⟩
  intro k hk
  exact parseRowNumbers_len_of_ge _ (htok k hk)

theorem C9_noct_alignment_witness :
    pyLookup ((parseJinkoLikeVariants
        ("Maximum Power - Pmax 570 575 580 585 590\nSpecifications (NOCT)\n430 433 437 441 445\n40.1 40.2 40.3 40.4 40.5\n10.1 10.2 10.3 10.4 10.5\n41.1 41.2 41.3 41.4 41.5\n11.1 11.2 11.3 11.4 11.5")).getD 2 [])
      "noct_pmax_w" = some "437" ∧
    pyLookup ((parseJinkoLikeVariants
        ("Maximum Power - Pmax 570 575 580 585 590\nSpecifications (NOCT)\n430 433 437 441 445\n40.1 40.2 40.3 40.4 40.5\n10.1 10.2 10.3 10.4 10.5\n41.1 41.2 41.3 41.4 41.5\n11.1 11.2 11.3 11.4 11.5")).getD 2 [])
      "pmax_w" = some "580" := by
  have h := C9_noct_alignment
    ("Maximum Power - Pmax 570 575 580 585 590\nSpecifications (NOCT)\n430 433 437 441 445\n40.1 40.2 40.3 40.4 40.5\n10.1 10.2 10.3 10.4 10.5\n41.1 41.2 41.3 41.4 41.5\n11.1 11.2 11.3 11.4 11.5")
    1 (by decide) (by decide) (by decide) (by decide) 2 (by decide)
  exact ⟨h.2.1.trans (by decide), h.1.trans (by decide)⟩

/-- Helper: the exact scaled comparison agrees with the rational value
of the decimal token. -/
theorem decInRange_iff (lo hi : Nat) (tok : String) :
    decInRange lo hi tok = true ↔
      ((lo : ℚ) ≤ decRat tok ∧ decRat tok ≤ (hi : ℚ)) := by
  unfold decInRange decRat
  have hp : 0 < (decScaled tok.data).2 := by
    unfold decScaled
    exact pow_pos (by norm_num) _
  have hpos : 0 < ((decScaled tok.data).2 : ℚ) := by exact_mod_cast hp
  constructor
  · intro h
    simp only [Bool.and_eq_true, decide_eq_true_eq] at h
    constructor
    · rw [le_div_iff₀ hpos]
      exact_mod_cast h.1
    · rw [div_le_iff₀ hpos]
      exact_mod_cast h.2
  · intro h
    simp only [Bool.and_eq_true, decide_eq_true_eq]
    constructor
    · have := (le_div_iff₀ hpos).mp h.1
      exact_mod_cast this
    · have := (div_le_iff₀ hpos).mp h.2
      exact_mod_cast this

/-- Helper: the source's filter coincides with the specification's
range predicate. -/
theorem acceptB_eq_acceptSpec (m : BMatch) : acceptB m = acceptSpec m := by
  have h1 := decInRange_iff 20 80 m.vmp
  have h2 := decInRange_iff 30 90 m.voc
  have h3 := decInRange_iff 10 30 m.eff
  rw [Bool.eq_iff_iff]
  unfold acceptB acceptSpec
  simp only [Bool.and_eq_true, decide_eq_true_eq, h1, h2, h3, and_assoc,
    Nat.cast_ofNat]

/-- Helper: folding the filtered step equals filtering then folding the
plain dedup step. -/
theorem foldl_rowsStep_filter (l : List BMatch)
    (d : List (String × (String × String × String × String × String))) :
    l.foldl formatBRowsStep d =
      (l.filter acceptB).foldl
        (fun d m => pyUpdate d m.p (m.vmp, m.imp, m.voc, m.isc, m.eff)) d := by
  induction l generalizing d with
  | nil => rfl
  | cons m t ih =>
    by_cases hc : acceptB m <;> simp [List.filter, formatBRowsStep, hc, ih]

/-- C6: a six-number Format-B match enters the candidate row set exactly
when it passes the plausibility ranges (Pmax in [500,800], Vmp in
[20,80], Voc in [30,90], efficiency in [10,30]); in particular the line
`"999 5.0 200.0 5.0 5.0 5.0"` produces no Format-B candidate. -/
theorem C6_plausibility_filter (text : String) :
    formatBRows text =
      ((findAllB text.data).filter acceptSpec).foldl
        (fun d m => pyUpdate d m.p (m.vmp, m.imp, m.voc, m.isc, m.eff)) [] ∧
    parseRenewsysLikeVariants "999 5.0 200.0 5.0 5.0 5.0" = [] := by
  constructor
  · unfold formatBRows
    rw [foldl_rowsStep_filter]
    rw [List.filter_congr (fun m _ => acceptB_eq_acceptSpec m)]
  · decide

/-- Lookup after folding keyed updates: the last update for a key wins,
falling back to the base dict. -/
theorem pyLookup_foldl_update_by {α β : Type} (key : β → String) (val : β → α)
    (l : List β) (d : List (String × α)) (k : String) :
    pyLookup (l.foldl (fun a m => pyUpdate a (key m) (val m)) d) k =
      ((l.reverse.find? (fun m => key m == k)).map val).or (pyLookup d k) := by
  induction l generalizing d with
  | nil => simp
  | cons m t ih =>
    simp only [List.foldl_cons, List.reverse_cons, ih, List.find?_append]
    cases hf : t.reverse.find? (fun q => key q == k) with
    | some x => simp [Option.or]
    | none =>
      by_cases h : key m = k
      · subst h
        simp [List.find?, pyLookup_update_self, Option.or]
      · have hb : (key m == k) = false := by simp [h]
        simp [List.find?, hb, pyLookup_update_ne _ _ _ _ h, Option.or]

/-- Helper: extracting the `pmax_w` column of rows built from keys. -/
theorem map_lookup_pmax (L : List String)
    (f : String → List (String × String))
    (hf : ∀ p, pyLookup (f p) "pmax_w" = some p) :
    (L.map f).map (fun v => (pyLookup v "pmax_w").getD "") = L := by
  induction L with
  | nil => rfl
  | cons p t ih => simp [hf, ih]

/-- C7: Format B deduplicates accepted candidates by Pmax with the last
match for a key replacing earlier values; the returned variants are
exactly the selected band — the candidates with Pmax in [600,625] when
any exist, else the (at most) six candidates with the lowest Pmax — the
candidate keys being sorted ascending by integer value. -/
theorem C7_dedup_and_band (text : String) :
    (∀ p, pyLookup (formatBRows text) p =
      (((findAllB text.data).filter acceptB).reverse.find?
          (fun m => m.p == p)).map
        (fun m => (m.vmp, m.imp, m.voc, m.isc, m.eff))) ∧
    ((parseRenewsysLikeVariants text).map
        (fun v => (pyLookup v "pmax_w").getD "") = renewsysUseKeys text) ∧
    (sortByIntVal ((formatBRows text).map Prod.fst)).Perm
      ((formatBRows text).map Prod.fst) ∧
    (sortByIntVal ((formatBRows text).map Prod.fst)).Sorted
      (fun a b => natOfDigits a.data ≤ natOfDigits b.data) := by
  refine ⟨?_, ?_, ?_, ?_⟩
  · intro p
    unfold formatBRows
    rw [foldl_rowsStep_filter]
    rw [pyLookup_foldl_update_by (fun m : BMatch => m.p)
      (fun m : BMatch => (m.vmp, m.imp, m.voc, m.isc, m.eff))
      ((findAllB text.data).filter acceptB) [] p]
    cases ((findAllB text.data).filter acceptB).reverse.find?
        (fun m => m.p == p) <;>
      simp [Option.or, pyLookup]
  · by_cases hk : sortByIntVal ((formatBRows text).map Prod.fst) = []
    · unfold parseRenewsysLikeVariants renewsysUseKeys
      simp [hk]
    · unfold parseRenewsysLikeVariants renewsysUseKeys
      rw [if_neg hk, map_lookup_pmax]
      exact fun p => rfl
  · unfold sortByIntVal
    exact List.perm_insertionSort _ _
  · haveI hTot : IsTotal String
        (fun a b => natOfDigits a.data ≤ natOfDigits b.data) :=
      ⟨fun a b => Nat.le_total _ _⟩
    haveI hTr : IsTrans String
        (fun a b => natOfDigits a.data ≤ natOfDigits b.data) :=
      ⟨fun a b c => Nat.le_trans⟩
    unfold sortByIntVal
    exact List.sorted_insertionSort _ _
